import Mathlib

/-!
Verification development for the web-shader core: the uniform layout
calculator, shader binding resolver, draw-time bind group assembler,
event bus history, and resource lifecycle manager.

Each definition is a shallow embedding of a function of the repository
(package `packages/core/src`); doc comments name the source symbol.
Machine floats carried by uniform values never influence layout or
control flow, so their payloads are modelled as `Int`.
-/

set_option maxRecDepth 8000

namespace WebShader

/-- A uniform value, as probed at runtime by `uniforms.ts`:
a JS number, a boolean, a numeric array (vector or matrix),
a texture-like object (an object exposing `createView` or a `texture`
property, optionally with a `sampler` property, modelled by ids),
or any other object shape (`obj`). -/
inductive UValue where
  | num (x : Int)
  | bool (b : Bool)
  | arr (xs : List Int)
  | texture (texId : Nat) (sampler : Option Nat)
  | obj
deriving DecidableEq, Repr

/-- A uniform descriptor: ordered name-to-value entries. Corresponds to the
`Uniforms` record of the source, where each entry `uniforms[key].value`
is a `UValue`; `for..in` iteration order is the declaration order. -/
abbrev Uniforms := List (String × UValue)

/-- `getUniformSize` of `packages/core/src/uniforms.ts` (lines 68-80):
numbers and booleans take 4 bytes, arrays of length 2/3/4/9/16 take
8/12/16/48/64 bytes, everything else falls through to 0. -/
def getUniformSize : UValue → Nat
  | .num _ => 4
  | .bool _ => 4
  | .arr xs =>
    if xs.length = 2 then 8
    else if xs.length = 3 then 12
    else if xs.length = 4 then 16
    else if xs.length = 9 then 48
    else if xs.length = 16 then 64
    else 0
  | _ => 0

/-- `getUniformAlignment` of `uniforms.ts` (lines 90-102): numbers and
booleans align to 4, length-2 arrays to 8, lengths 3/4/9/16 to 16, and
everything else (including arrays of unmatched length) falls through to
the defensive default 16. -/
def getUniformAlignment : UValue → Nat
  | .num _ => 4
  | .bool _ => 4
  | .arr xs =>
    if xs.length = 2 then 8
    else if xs.length = 3 then 16
    else if xs.length = 4 then 16
    else if xs.length = 9 then 16
    else if xs.length = 16 then 16
    else 16
  | _ => 16

/-- The texture-skip test of `calculateUniformBufferSize` and
`updateUniformBuffer`: `value && typeof value === "object" &&
("createView" in value || "texture" in value)`. Only texture-like
objects satisfy it; plain arrays and other objects do not. -/
def isTextureLike : UValue → Bool
  | .texture _ _ => true
  | _ => false

/-- `Math.ceil(offset / a) * a` on naturals (the alignments used are
4, 8 and 16, all positive). -/
def alignTo (offset a : Nat) : Nat := ((offset + a - 1) / a) * a

/-- One iteration of the layout loop of `calculateUniformBufferSize`
(lines 108-131): texture-like values are skipped, recognized values
first align the running offset then add their size, unrecognized
values (size 0) leave the offset unchanged. -/
def layoutStep (offset : Nat) (v : UValue) : Nat :=
  if isTextureLike v then offset
  else if 0 < getUniformSize v then
    alignTo offset (getUniformAlignment v) + getUniformSize v
  else offset

/-- The running offset after the walk of `calculateUniformBufferSize`,
before the final round-up. -/
def rawUniformOffset (us : Uniforms) : Nat :=
  us.foldl (fun o kv => layoutStep o kv.2) 0

/-- `calculateUniformBufferSize` of `uniforms.ts` (lines 108-131):
walks the entries in order and rounds the final total up to 16,
returning 0 for an empty layout (`offset > 0 ? ceil : 0`). -/
def calculateUniformBufferSize (us : Uniforms) : Nat :=
  let offset := rawUniformOffset us
  if 0 < offset then alignTo offset 16 else 0

/-- A layout entry derived for one recognized non-texture uniform:
its name, assigned byte offset, byte size and required alignment. -/
structure LayoutEntry where
  name : String
  offset : Nat
  size : Nat
  alignment : Nat
deriving DecidableEq, Repr

/-- The per-entry trace of the layout walk of `calculateUniformBufferSize`
starting from a given running offset: one `LayoutEntry` per recognized
non-texture value, in declaration order. -/
def layoutEntriesFrom (offset : Nat) : Uniforms → List LayoutEntry
  | [] => []
  | (k, v) :: rest =>
    if isTextureLike v then layoutEntriesFrom offset rest
    else if 0 < getUniformSize v then
      ⟨k, alignTo offset (getUniformAlignment v), getUniformSize v,
        getUniformAlignment v⟩ ::
        layoutEntriesFrom
          (alignTo offset (getUniformAlignment v) + getUniformSize v) rest
    else layoutEntriesFrom offset rest

/-- The layout entries of a descriptor, starting at offset 0. -/
def layoutEntries (us : Uniforms) : List LayoutEntry := layoutEntriesFrom 0 us

/-- `writeUniformData` of `uniforms.ts` (lines 137-173), modelled as the
list of 4-byte word writes it performs (word index, value written) and
the byte count it returns. Numbers are written as one word, booleans as
the word 1 or 0 through a `Uint32Array` view at the same byte offset,
and arrays of length 2/3/4 as consecutive words. Arrays of any other
length (including 9 and 16) and all other values hit no case: nothing
is written and 0 is returned. -/
def writeUniformData (offset : Nat) : UValue → List (Nat × Int) × Nat
  | .num x => ([(offset / 4, x)], 4)
  | .bool b => ([(offset / 4, if b then 1 else 0)], 4)
  | .arr [a, b] => ([(offset / 4, a), (offset / 4 + 1, b)], 8)
  | .arr [a, b, c] =>
    ([(offset / 4, a), (offset / 4 + 1, b), (offset / 4 + 2, c)], 12)
  | .arr [a, b, c, d] =>
    ([(offset / 4, a), (offset / 4 + 1, b), (offset / 4 + 2, c),
      (offset / 4 + 3, d)], 16)
  | _ => ([], 0)

/-- The per-entry offset trace of `updateUniformBuffer` (lines 179-212):
for each recognized non-texture value it aligns the running offset,
calls `writeUniformData` there, and advances by the byte count that call
returned (`offset += written`). Records the byte offset at which each
value is serialized. -/
def updateWalkFrom (offset : Nat) : Uniforms → List (String × Nat)
  | [] => []
  | (k, v) :: rest =>
    if isTextureLike v then updateWalkFrom offset rest
    else if 0 < getUniformSize v then
      (k, alignTo offset (getUniformAlignment v)) ::
        updateWalkFrom
          (alignTo offset (getUniformAlignment v) +
            (writeUniformData (alignTo offset (getUniformAlignment v)) v).2)
          rest
    else updateWalkFrom offset rest

/-- The serialization offsets of `updateUniformBuffer`, starting at 0. -/
def updateUniformBufferOffsets (us : Uniforms) : List (String × Nat) :=
  updateWalkFrom 0 us

/-- A value is matrix-shaped when it is an array of length 9 or 16. -/
def isMatrixShaped : UValue → Bool
  | .arr xs => xs.length = 9 || xs.length = 16
  | _ => false

/-- The descriptor of the worked example of the spec: two scalars and a
3-vector (numeric payloads do not influence the layout). -/
def specExampleUniforms : Uniforms :=
  [("amplitude", .num 3), ("frequency", .num 8), ("color", .arr [2, 8, 1])]

/-- A 3-vector followed by a scalar: the scalar lands at offset 12,
inside the 4-byte tail after the 3-vector. -/
def vec3ThenScalarEx : Uniforms := [("v", .arr [0, 0, 0]), ("x", .num 0)]

/-- A 3-vector followed by a 2-vector. -/
def vec3ThenVec2Ex : Uniforms := [("v", .arr [0, 0, 0]), ("w", .arr [0, 0])]

/-- A 4x4 matrix followed by a scalar. -/
def matrixThenScalarEx : Uniforms :=
  [("m", .arr (List.replicate 16 0)), ("x", .num 0)]

/-- Decides whether some layout entry of the descriptor is a 3-vector
(size 12) whose trailing 4-byte hole [offset+12, offset+16) contains the
offset assigned to a later entry. -/
def holeOverwritten (us : Uniforms) : Bool :=
  ((layoutEntries us).enum.any fun ie =>
    ie.2.size == 12 &&
      ((layoutEntries us).enum.any fun jf =>
        decide (ie.1 < jf.1 ∧ ie.2.offset + 12 ≤ jf.2.offset ∧
          jf.2.offset < ie.2.offset + 16)))

/-- An event as recorded by the event bus (`event-emitter.ts`): its type
tag (the `type` discriminant of `RalphGPUEvent`) and a numeric id
standing for the rest of the record (timestamp, payload). -/
structure REvent where
  etype : String
  eid : Nat
deriving DecidableEq, Repr

/-- The state of `EventEmitter` (`event-emitter.ts`): the optional type
allow-list `types`, the capacity `maxHistory`, the backing `history`
array, the wraparound index `historyIndex` and the `isHistoryFull`
flag. The listener registries are callback sets whose invocation does
not change this state, so they are not modelled. -/
structure EventEmitter where
  types : Option (List String)
  maxHistory : Nat
  history : List REvent
  historyIndex : Nat
  isHistoryFull : Bool
deriving DecidableEq, Repr

/-- `new EventEmitter(options)`: empty history, index 0, not full;
`types` is the optional allow-list, `historySize` defaults to 1000. -/
def mkEventEmitter (types : Option (List String))
    (historySize : Nat := 1000) : EventEmitter :=
  ⟨types, historySize, [], 0, false⟩

/-- The early-return test of `emit`:
`if (this.types && !this.types.has(event.type)) return;`. -/
def filteredOut : Option (List String) → String → Bool
  | some ts, t => !(ts.contains t)
  | none, _ => false

/-- `EventEmitter.emit` (`event-emitter.ts` lines 75-101), the history
bookkeeping: a filtered-out event leaves the state unchanged; otherwise,
when `maxHistory > 0`, the event overwrites slot `historyIndex` when the
buffer is full and is pushed otherwise, the index advances modulo
`maxHistory`, and the full flag is raised when the new index wraps to 0.
Listener notification performs no state change. -/
def EventEmitter.emit (s : EventEmitter) (e : REvent) : EventEmitter :=
  if filteredOut s.types e.etype then s
  else if 0 < s.maxHistory then
    { s with
      history :=
        if s.isHistoryFull then s.history.set s.historyIndex e
        else s.history ++ [e],
      historyIndex := (s.historyIndex + 1) % s.maxHistory,
      isHistoryFull :=
        if (s.historyIndex + 1) % s.maxHistory = 0 ∧ ¬ s.isHistoryFull then
          true
        else s.isHistoryFull }
  else s

/-- `EventEmitter.getHistory` (`event-emitter.ts` lines 106-116):
reconstructs chronological order from the wraparound position, then
optionally restricts to a nonempty list of event types. -/
def EventEmitter.getHistory (s : EventEmitter)
    (filter : Option (List String)) : List REvent :=
  let relevantHistory :=
    if s.isHistoryFull then
      s.history.drop s.historyIndex ++ s.history.take s.historyIndex
    else s.history
  match filter with
  | some f =>
    if 0 < f.length then relevantHistory.filter (fun e => f.contains e.etype)
    else relevantHistory
  | none => relevantHistory

/-- Emitting a sequence of events in order. -/
def emitAll (s : EventEmitter) (evs : List REvent) : EventEmitter :=
  evs.foldl EventEmitter.emit s

/-- The last `c` elements of a list (all of it when it is shorter). -/
def lastN (c : Nat) (l : List REvent) : List REvent := l.drop (l.length - c)

/-- The reachable-state invariant of an unfiltered emitter of capacity
`c`: when the buffer is not yet full the index equals the history length
and the buffer is strictly below capacity; once full the history has
exactly `c` entries and the index stays below `c`. -/
def EmitterInv (c : Nat) (s : EventEmitter) : Prop :=
  s.types = none ∧ s.maxHistory = c ∧
    (s.isHistoryFull = true → s.history.length = c ∧ s.historyIndex < c) ∧
    (s.isHistoryFull = false →
      s.historyIndex = s.history.length ∧ s.history.length < c)

/-- JS regex `\s` on the source text (ASCII whitespace; the shader
sources involved contain no exotic Unicode spaces). -/
def isJsSpace (c : Char) : Bool :=
  c == ' ' || c == '\t' || c == '\n' || c == '\r' || c == '\x0b' ||
    c == '\x0c'

/-- JS regex `\d`. -/
def isDigitCh (c : Char) : Bool := '0' ≤ c && c ≤ '9'

/-- JS regex `\w`. -/
def isWordCh (c : Char) : Bool :=
  ('a' ≤ c && c ≤ 'z') || ('A' ≤ c && c ≤ 'Z') || ('0' ≤ c && c ≤ '9') ||
    c == '_'

/-- Consume an exact literal, returning the remainder. -/
def eatLit : List Char → List Char → Option (List Char)
  | cs, [] => some cs
  | [], _ :: _ => none
  | c :: cs, p :: ps => if c == p then eatLit cs ps else none

/-- `parseInt` on a digit string. -/
def digitsToNat (ds : List Char) : Nat :=
  ds.foldl (fun n c => n * 10 + (c.toNat - ('0').toNat)) 0

/-- `String.prototype.trim` (over the ASCII whitespace of `isJsSpace`). -/
def trimChars (cs : List Char) : List Char :=
  ((cs.dropWhile isJsSpace).reverse.dropWhile isJsSpace).reverse

/-- One group-1 declaration captured by the regex of
`parseBindGroup1Bindings`: the binding number, the optional
`var<...>` modifier (capture 2), the variable name (capture 3) and the
trimmed type text (capture 4). -/
structure WGSLDecl where
  binding : Nat
  varModifier : Option String
  name : String
  ty : String
deriving DecidableEq, Repr

/-- One attempted match, at the current position, of the regex
`@group\(1\)\s+@binding\((\d+)\)\s+var(?:<([^>]+)>)?\s+(\w+)\s*:\s*([^;]+);`
of `uniforms.ts` line 342. Every quantified piece of that pattern is
followed by a character its class excludes, so greedy maximal munch
without backtracking matches the regex engine exactly; the optional
`<([^>]+)>` group, when it fails or is absent, consumes nothing and the
mandatory following `\s+` then fails on `<`, exactly as the regex
backtracking would. -/
def matchDeclAt (cs : List Char) : Option (WGSLDecl × List Char) := do
  let cs ← eatLit cs (("@group(1)").data)
  let (sp1, cs) := cs.span isJsSpace
  if sp1.isEmpty then none else do
  let cs ← eatLit cs (("@binding(").data)
  let (ds, cs) := cs.span isDigitCh
  if ds.isEmpty then none else do
  let cs ← eatLit cs ((")").data)
  let (sp2, cs) := cs.span isJsSpace
  if sp2.isEmpty then none else do
  let cs ← eatLit cs (("var").data)
  let (varMod, cs) :=
    match cs with
    | '<' :: rest =>
      match rest.span (fun c => !(c == '>')) with
      | (inner, '>' :: rest2) =>
        if inner.isEmpty then ((none : Option String), '<' :: rest)
        else (some (String.mk inner), rest2)
      | _ => ((none : Option String), '<' :: rest)
    | _ => ((none : Option String), cs)
  let (sp3, cs) := cs.span isJsSpace
  if sp3.isEmpty then none else do
  let (nm, cs) := cs.span isWordCh
  if nm.isEmpty then none else do
  let (_, cs) := cs.span isJsSpace
  let cs ← eatLit cs ((":").data)
  let (_, cs) := cs.span isJsSpace
  let (tyRaw, cs) := cs.span (fun c => !(c == ';'))
  if tyRaw.isEmpty then none else do
  let cs ← eatLit cs ((";").data)
  some (⟨digitsToNat ds, varMod, String.mk nm, String.mk (trimChars tyRaw)⟩,
    cs)

/-- The `regex.exec` loop with the `g` flag: scan left to right, restart
after the end of each match. The fuel argument bounds the number of scan
steps by the input length (each step either advances one character or
consumes a whole nonempty match). -/
def scanBindingsAux : Nat → List Char → List WGSLDecl
  | 0, _ => []
  | _ + 1, [] => []
  | fuel + 1, c :: rest =>
    match matchDeclAt (c :: rest) with
    | some (d, rem) => d :: scanBindingsAux fuel rem
    | none => scanBindingsAux fuel rest

/-- All group-1 declarations matched in the source, in order. -/
def scanBindings (cs : List Char) : List WGSLDecl :=
  scanBindingsAux cs.length cs

/-- `WGSLBindings` of `uniforms.ts` (lines 321-326): the optional
uniform-buffer slot and the name-to-slot maps for textures, samplers and
storage buffers. JS `Map` objects are modelled as insertion-ordered
association lists with unique keys. -/
structure WGSLBindings where
  uniformBuffer : Option Nat
  textures : List (String × Nat)
  samplers : List (String × Nat)
  storage : List (String × Nat)
deriving DecidableEq, Repr

/-- The initial bindings record of `parseBindGroup1Bindings`. -/
def emptyBindings : WGSLBindings := ⟨none, [], [], []⟩

/-- `Map.prototype.set`: replace in place when the key exists, append
otherwise. -/
def mapSet (m : List (String × Nat)) (k : String) (v : Nat) :
    List (String × Nat) :=
  if m.any (fun p => p.1 == k) then
    m.map (fun p => if p.1 == k then (k, v) else p)
  else m ++ [(k, v)]

/-- `Map.prototype.get` (undefined becomes `none`). -/
def mapGet (m : List (String × Nat)) (k : String) : Option Nat :=
  (m.find? (fun p => p.1 == k)).map (fun p => p.2)

def startsWithL : List Char → List Char → Bool
  | _, [] => true
  | [], _ :: _ => false
  | c :: cs, p :: ps => c == p && startsWithL cs ps

def includesL : List Char → List Char → Bool
  | [], pat => pat.isEmpty
  | c :: cs, pat => startsWithL (c :: cs) pat || includesL cs pat

/-- `String.prototype.includes`. -/
def strIncludes (s pat : String) : Bool := includesL s.data pat.data

/-- The classification of one matched declaration: the loop body of
`parseBindGroup1Bindings` (`uniforms.ts` lines 345-363), in its priority
order: modifier `uniform` sets the uniform-buffer slot; else modifier
`storage` or a type containing `array<` adds a storage entry; else a
type containing `texture_` adds a texture entry; else a type containing
`sampler` adds a sampler entry; anything else is ignored. -/
def addDecl (b : WGSLBindings) (d : WGSLDecl) : WGSLBindings :=
  if d.varModifier == some "uniform" then
    { b with uniformBuffer := some d.binding }
  else if d.varModifier == some "storage" ||
      strIncludes d.ty ("array<") then
    { b with storage := mapSet b.storage d.name d.binding }
  else if strIncludes d.ty ("texture_") then
    { b with textures := mapSet b.textures d.name d.binding }
  else if strIncludes d.ty ("sampler") then
    { b with samplers := mapSet b.samplers d.name d.binding }
  else b

/-- `parseBindGroup1Bindings` of `uniforms.ts` (lines 332-366): scan the
source for group-1 declarations and classify each in order. -/
def parseBindGroup1Bindings (wgsl : String) : WGSLBindings :=
  (scanBindings wgsl.data).foldl addDecl emptyBindings

def endsWithL (s pat : List Char) : Bool := startsWithL s.reverse pat.reverse

/-- A texture binding collected from the uniforms by
`collectTextureBindings` (`uniforms.ts` lines 290-316): the GPU texture
(id) and, when the uniform value carried one, its sampler (id). -/
structure TexBinding where
  texture : Nat
  sampler : Option Nat
deriving DecidableEq, Repr

/-- `collectTextureBindings`: each texture-like uniform value yields an
entry keyed by the uniform name; `createView` objects (plain GPU
textures) carry no sampler, `texture`-property objects carry their
optional sampler. -/
def collectTextureBindings (us : Uniforms) : List (String × TexBinding) :=
  us.filterMap fun kv =>
    match kv.2 with
    | .texture t s => some (kv.1, ⟨t, s⟩)
    | _ => none

/-- A resource placed in a bind group entry by `Material.drawInternal`. -/
inductive BindResource where
  | buffer (id : Nat)
  | textureView (texId : Nat)
  | sampler (id : Nat)
deriving DecidableEq, Repr

/-- The sampler lookup chain of `Material.drawInternal`
(`material.ts` lines 216-222): try `<name>Sampler`, then
`<name>_sampler`, then, when the name ends in `Tex`, the base name
(`slice(0, -3)`) plus `Sampler`; the first hit wins. -/
def findSamplerBinding (samplers : List (String × Nat)) (name : String) :
    Option Nat :=
  match mapGet samplers (name ++ "Sampler") with
  | some b => some b
  | none =>
    match mapGet samplers (name ++ "_sampler") with
    | some b => some b
    | none =>
      if endsWithL name.data (("Tex").data) then
        mapGet samplers
          (String.mk (name.data.take (name.data.length - 3)) ++ "Sampler")
      else none

/-- The `console.warn` message of `material.ts` line 230. -/
def samplerWarning (name : String) : String :=
  "Could not find sampler binding for texture \x27" ++ name ++
    "\x27. Expected \x27" ++ name ++ "Sampler\x27, \x27" ++ name ++
    "_sampler\x27, or similar."

/-- The texture-and-sampler section of the bind group assembly of
`Material.drawInternal` (`material.ts` lines 203-234): for each
collected texture whose name has a discovered texture slot, push a view
entry; when the texture carries a sampler, look its slot up through
`findSamplerBinding` and either push the sampler entry or log a warning
and continue. Returns the entries pushed and the warnings logged; the
function is total, so the draw always proceeds. -/
def textureBindGroupEntries (bindings : WGSLBindings)
    (textures : List (String × TexBinding)) :
    List (Nat × BindResource) × List String :=
  textures.foldl
    (fun acc nt =>
      match mapGet bindings.textures nt.1 with
      | none => acc
      | some tb =>
        let acc2 :=
          (acc.1 ++ [(tb, BindResource.textureView nt.2.texture)], acc.2)
        match nt.2.sampler with
        | none => acc2
        | some smp =>
          match findSamplerBinding bindings.samplers nt.1 with
          | some sb => (acc2.1 ++ [(sb, BindResource.sampler smp)], acc2.2)
          | none => (acc2.1, acc2.2 ++ [samplerWarning nt.1]))
    ([], [])

/-- The three-way usage mode of a render target (`RenderTargetUsage`). -/
inductive RTUsage where
  | render
  | storage
  | both
deriving DecidableEq, Repr

/-- The usage-flag computation of `RenderTarget.createTexture`
(`target.ts` lines 491-507), with the WebGPU numeric flag values:
COPY_SRC 1, TEXTURE_BINDING 4, STORAGE_BINDING 8, RENDER_ATTACHMENT
16. -/
def renderTargetUsageFlags (u : RTUsage) : Nat :=
  let usage := 4 ||| 1
  let usage :=
    if u = RTUsage.render ∨ u = RTUsage.both then usage ||| 16 else usage
  if u = RTUsage.storage ∨ u = RTUsage.both then usage ||| 8 else usage

/-- GPU-side resource bookkeeping for the render-target model: a fresh-id
counter for created textures and the set of destroyed texture ids. -/
structure GPUResourceState where
  nextId : Nat
  destroyed : List Nat
deriving DecidableEq, Repr

/-- `TextureReference` (`target.ts` lines 409-438): a stable object
identity (`refId`) wrapping the mutable `_gpuTexture` backing field.
The `.texture` getter returns `gpuTexture`; `_updateTexture` replaces it
in place, leaving `refId` unchanged. -/
structure TextureReference where
  refId : Nat
  gpuTexture : Nat
deriving DecidableEq, Repr

/-- The state of a `RenderTarget` (`target.ts` lines 443-689) relevant
to resize: dimensions, usage mode, the current backing texture id, the
stable reference (absent until the first `createTexture`), and the
cached view (modelled by the id of the texture it was created from). -/
structure RenderTarget where
  width : Nat
  height : Nat
  usage : RTUsage
  gpuTexture : Nat
  textureRef : Option TextureReference
  view : Nat
deriving DecidableEq, Repr

/-- `RenderTarget.createTexture` (`target.ts` lines 491-518): create a
fresh texture with the derived usage flags, refresh the cached view, and
create the stable reference on first use or update its backing in place
afterwards (`_updateTexture`). -/
def createTexture (st : GPUResourceState) (rt : RenderTarget) :
    GPUResourceState × RenderTarget :=
  let texId := st.nextId
  let st2 : GPUResourceState := ⟨st.nextId + 1, st.destroyed⟩
  let rt2 := { rt with gpuTexture := texId, view := texId }
  match rt2.textureRef with
  | none => (st2, { rt2 with textureRef := some ⟨texId, texId⟩ })
  | some r => (st2, { rt2 with textureRef := some ⟨r.refId, texId⟩ })

/-- The `RenderTarget` constructor (`target.ts` lines 457-489): store the
options and call `createTexture`. The sampler creation and the allocate
event do not interact with the texture reference and are omitted here
(the allocate event is modelled for storage buffers below). -/
def mkRenderTarget (st : GPUResourceState) (w h : Nat) (usage : RTUsage) :
    GPUResourceState × RenderTarget :=
  createTexture st ⟨w, h, usage, 0, none, 0⟩

/-- `RenderTarget.resize` (`target.ts` lines 598-623): a no-op when the
dimensions are unchanged; otherwise destroy the old texture, store the
new size and recreate through `createTexture` (which updates the stable
reference in place); the resize event carries no resource ids. -/
def RenderTarget.resize (st : GPUResourceState) (rt : RenderTarget)
    (w h : Nat) : GPUResourceState × RenderTarget :=
  if w = rt.width ∧ h = rt.height then (st, rt)
  else
    let st2 : GPUResourceState := ⟨st.nextId, rt.gpuTexture :: st.destroyed⟩
    createTexture st2 { rt with width := w, height := h }

/-- A memory event as emitted by the resource constructors
(`events.ts` `MemoryEvent`): the `type` tag, resource type, byte size
and action. The timestamp and generated id carry no information the
claims need. -/
structure MemoryEvent where
  etype : String
  resourceType : String
  size : Nat
  action : String
deriving DecidableEq, Repr

/-- A `StorageBuffer` (`storage.ts`): the byte size fixed at
construction and the usage flags of the GPU buffer it creates
(STORAGE 128, COPY_DST 8, COPY_SRC 4, INDEX 16). -/
structure StorageBuffer where
  byteSize : Nat
  bufferUsage : Nat
deriving DecidableEq, Repr

/-- The `StorageBuffer` constructor (`storage.ts` lines 18-44): create
the GPU buffer of `byteSize` bytes, and, when an event context was
passed, emit one memory event with resource type `buffer`, the byte
size, and action `allocate`. Returns the buffer and the emitted
events. -/
def mkStorageBuffer (byteSize : Nat) (hasContext : Bool) :
    StorageBuffer × List MemoryEvent :=
  (⟨byteSize, 128 ||| 8 ||| 4 ||| 16⟩,
    if hasContext then [⟨"memory", "buffer", byteSize, "allocate"⟩] else [])

theorem alignTo_mod (x a : Nat) : alignTo x a % a = 0 :=
  Nat.mul_mod_left _ _

theorem getUniformAlignment_cases (v : UValue) :
    getUniformAlignment v = 4 ∨ getUniformAlignment v = 8 ∨
      getUniformAlignment v = 16 := by
  cases v with
  | num x => simp [getUniformAlignment]
  | bool b => simp [getUniformAlignment]
  | arr xs =>
    simp only [getUniformAlignment]
    split_ifs <;> tauto
  | texture t s => simp [getUniformAlignment]
  | obj => simp [getUniformAlignment]

theorem getUniformAlignment_of_size12 (v : UValue)
    (h : getUniformSize v = 12) : getUniformAlignment v = 16 := by
  cases v with
  | num x => simp [getUniformSize] at h
  | bool b => simp [getUniformSize] at h
  | arr xs =>
    simp only [getUniformSize] at h
    simp only [getUniformAlignment]
    split_ifs at h ⊢ <;> omega
  | texture t s => simp [getUniformSize] at h
  | obj => simp [getUniformSize] at h

/-- Structural facts about every entry of the layout walk, at any start
offset: the offset is aligned, 12-byte entries (3-vectors) have
alignment 16, and every alignment is 4 or a multiple of 8. -/
theorem layoutEntriesFrom_facts (us : Uniforms) :
    ∀ off, ∀ e ∈ layoutEntriesFrom off us,
      e.offset % e.alignment = 0 ∧ (e.size = 12 → e.alignment = 16) ∧
        (e.alignment = 4 ∨ e.alignment % 8 = 0) := by
  induction us with
  | nil => intro off e he; simp [layoutEntriesFrom] at he
  | cons kv rest ih =>
    intro off e he
    obtain ⟨k, v⟩ := kv
    simp only [layoutEntriesFrom] at he
    split at he
    · exact ih off e he
    · split at he
      · rcases List.mem_cons.1 he with h | h
        · subst h
          refine ⟨alignTo_mod _ _, fun hs => getUniformAlignment_of_size12 v hs, ?_⟩
          rcases getUniformAlignment_cases v with ha | ha | ha <;> simp [ha]
        · exact ih _ e h
      · exact ih off e he

theorem layoutStep_of_size_zero (o : Nat) (v : UValue)
    (h : getUniformSize v = 0) : layoutStep o v = o := by
  unfold layoutStep
  split
  · rfl
  · rw [h]
    simp

theorem writeUniformData_snd_eq_size (o : Nat) (v : UValue)
    (h : isMatrixShaped v = false) :
    (writeUniformData o v).2 = getUniformSize v := by
  cases v with
  | num x => rfl
  | bool b => rfl
  | texture t s => rfl
  | obj => rfl
  | arr xs =>
    simp only [isMatrixShaped, Bool.or_eq_false_iff, decide_eq_false_iff_not]
      at h
    match xs with
    | [] => rfl
    | [a] => rfl
    | [a, b] => rfl
    | [a, b, c] => rfl
    | [a, b, c, d] => rfl
    | a :: b :: c :: d :: e :: rest =>
      simp only [List.length_cons] at h
      simp only [writeUniformData, getUniformSize, List.length_cons]
      split_ifs <;> omega

theorem updateWalkFrom_eq_layoutEntriesFrom :
    ∀ (us : Uniforms) (off : Nat),
      (∀ kv ∈ us, isMatrixShaped kv.2 = false) →
      updateWalkFrom off us =
        (layoutEntriesFrom off us).map (fun e => (e.name, e.offset)) := by
  intro us
  induction us with
  | nil => intro off _; rfl
  | cons kv rest ih =>
    intro off h
    obtain ⟨k, v⟩ := kv
    have hv : isMatrixShaped v = false := h (k, v) (List.mem_cons_self _ _)
    have hrest : ∀ kv ∈ rest, isMatrixShaped kv.2 = false :=
      fun kv hkv => h kv (List.mem_cons_of_mem _ hkv)
    simp only [updateWalkFrom, layoutEntriesFrom]
    split
    · exact ih off hrest
    · split
      · rw [writeUniformData_snd_eq_size _ v hv]
        simp only [List.map_cons]
        exact congrArg _ (ih _ hrest)
      · exact ih off hrest

/-- Claim C7: `getUniformSize` and `getUniformAlignment` reproduce the
alignment and size table exactly: scalars and booleans have size 4 and
alignment 4; 2-vectors 8 and 8; 3-vectors 12 and 16; 4-vectors 16 and
16; 3x3 matrices (9 elements) 48 and 16; 4x4 matrices (16 elements) 64
and 16. -/
theorem c7_size_alignment_table (x : Int) (b : Bool) (xs : List Int) :
    (getUniformSize (.num x) = 4 ∧ getUniformAlignment (.num x) = 4) ∧
    (getUniformSize (.bool b) = 4 ∧ getUniformAlignment (.bool b) = 4) ∧
    (xs.length = 2 →
      getUniformSize (.arr xs) = 8 ∧ getUniformAlignment (.arr xs) = 8) ∧
    (xs.length = 3 →
      getUniformSize (.arr xs) = 12 ∧ getUniformAlignment (.arr xs) = 16) ∧
    (xs.length = 4 →
      getUniformSize (.arr xs) = 16 ∧ getUniformAlignment (.arr xs) = 16) ∧
    (xs.length = 9 →
      getUniformSize (.arr xs) = 48 ∧ getUniformAlignment (.arr xs) = 16) ∧
    (xs.length = 16 →
      getUniformSize (.arr xs) = 64 ∧ getUniformAlignment (.arr xs) = 16) := by
  refine ⟨⟨rfl, rfl⟩, ⟨rfl, rfl⟩, ?_, ?_, ?_, ?_, ?_⟩ <;>
    intro h <;> constructor <;>
    simp only [getUniformSize, getUniformAlignment, h] <;> rfl

/-- Witness for C7: evaluated at a scalar, a boolean and a concrete
3-vector. -/
theorem c7_size_alignment_table_witness :
    ([(0 : Int), 0, 0].length = 3) ∧
      getUniformSize (.arr [(0 : Int), 0, 0]) = 12 ∧
      getUniformAlignment (.arr [(0 : Int), 0, 0]) = 16 :=
  ⟨by decide, (c7_size_alignment_table 0 true [0, 0, 0]).2.2.2.1 (by decide)⟩

/-- Claim C3: every layout entry has an offset divisible by its
alignment, the total returned by `calculateUniformBufferSize` is a
multiple of 16 for every descriptor, and the empty descriptor yields
size 0. -/
theorem c3_layout_invariants (us : Uniforms) :
    (∀ e ∈ layoutEntries us, e.offset % e.alignment = 0) ∧
      calculateUniformBufferSize us % 16 = 0 ∧
      calculateUniformBufferSize ([] : Uniforms) = 0 := by
  refine ⟨fun e he => (layoutEntriesFrom_facts us 0 e he).1, ?_, rfl⟩
  have hrw : calculateUniformBufferSize us =
      if 0 < rawUniformOffset us then alignTo (rawUniformOffset us) 16
      else 0 := rfl
  rw [hrw]
  split
  · exact alignTo_mod _ _
  · rfl

/-- Witness for C3: the worked example of the spec (two scalars and a
3-vector); its 3-vector entry sits at offset 16 and the total is 32. -/
theorem c3_layout_invariants_witness :
    ((⟨"color", 16, 12, 16⟩ : LayoutEntry) ∈ layoutEntries specExampleUniforms)
      ∧ (16 : Nat) % 16 = 0
      ∧ calculateUniformBufferSize specExampleUniforms % 16 = 0
      ∧ calculateUniformBufferSize specExampleUniforms = 32 :=
  ⟨by decide,
    (c3_layout_invariants specExampleUniforms).1 ⟨"color", 16, 12, 16⟩
      (by decide),
    (c3_layout_invariants specExampleUniforms).2.1,
    by decide⟩

/-- Claim C9: a value of unrecognized shape (size 0, not texture-like)
contributes zero bytes: removing its entry leaves
`calculateUniformBufferSize` unchanged. The walk is a total function,
so no error is raised. -/
theorem c9_unrecognized_shape_skipped (us1 us2 : Uniforms) (k : String)
    (v : UValue) (hsize : getUniformSize v = 0)
    (htex : isTextureLike v = false) :
    calculateUniformBufferSize (us1 ++ (k, v) :: us2) =
      calculateUniformBufferSize (us1 ++ us2) := by
  have hraw : rawUniformOffset (us1 ++ (k, v) :: us2) =
      rawUniformOffset (us1 ++ us2) := by
    unfold rawUniformOffset
    rw [List.foldl_append, List.foldl_append, List.foldl_cons]
    rw [layoutStep_of_size_zero _ v hsize]
  unfold calculateUniformBufferSize
  rw [hraw]

/-- Witness for C9: a length-5 array between a scalar and a boolean
contributes nothing to the computed size. -/
theorem c9_unrecognized_shape_skipped_witness :
    getUniformSize (.arr [1, 2, 3, 4, 5]) = 0 ∧
      isTextureLike (.arr [1, 2, 3, 4, 5]) = false ∧
      calculateUniformBufferSize
          ([("a", .num 1)] ++ ("weird", .arr [1, 2, 3, 4, 5]) ::
            [("b", .bool true)]) =
        calculateUniformBufferSize ([("a", .num 1)] ++ [("b", .bool true)]) :=
  ⟨by decide, by decide,
    c9_unrecognized_shape_skipped [("a", .num 1)] [("b", .bool true)] "weird"
      (.arr [1, 2, 3, 4, 5]) (by decide) (by decide)⟩

/-- Claim C2 counterexample: in the descriptor with a 3-vector followed
by a scalar, the layout walk assigns the scalar offset 12, which lies
inside the 4-byte hole [12, 16) after the 3-vector, refuting the claim
that no subsequent entry is assigned an offset inside the hole. -/
theorem c2_counterexample_scalar_in_hole :
    layoutEntries vec3ThenScalarEx =
        [⟨"v", 0, 12, 16⟩, ⟨"x", 12, 4, 4⟩] ∧
      holeOverwritten vec3ThenScalarEx = true := by
  constructor
  · decide
  · decide

/-- Claim C2 (amended): an entry whose alignment is not 4 is never
assigned an offset inside the 4-byte hole [o+12, o+16) after a 3-vector
entry laid out at offset o; only alignment-4 entries (scalars and
booleans) can land there, as the counterexample shows one does. -/
theorem c2_amended_no_wide_entry_in_hole (us : Uniforms)
    (e f : LayoutEntry) (he : e ∈ layoutEntries us)
    (hf : f ∈ layoutEntries us) (hsize : e.size = 12)
    (halign : f.alignment ≠ 4) :
    ¬ (e.offset + 12 ≤ f.offset ∧ f.offset < e.offset + 16) := by
  obtain ⟨heo, he12, _⟩ := layoutEntriesFrom_facts us 0 e he
  obtain ⟨hfo, _, hfa⟩ := layoutEntriesFrom_facts us 0 f hf
  have he16 : e.offset % 16 = 0 := by
    rw [he12 hsize] at heo
    exact heo
  rcases hfa with h | h
  · exact absurd h halign
  · have h8 : (8 : Nat) ∣ f.offset :=
      dvd_trans (Nat.dvd_of_mod_eq_zero h) (Nat.dvd_of_mod_eq_zero hfo)
    omega

/-- Witness for the amended C2: a 2-vector after a 3-vector is placed at
offset 16, not inside the hole [12, 16). -/
theorem c2_amended_witness :
    ((⟨"v", 0, 12, 16⟩ : LayoutEntry) ∈ layoutEntries vec3ThenVec2Ex) ∧
      ((⟨"w", 16, 8, 8⟩ : LayoutEntry) ∈ layoutEntries vec3ThenVec2Ex) ∧
      ¬ ((0 : Nat) + 12 ≤ 16 ∧ (16 : Nat) < 0 + 16) :=
  ⟨by decide, by decide,
    c2_amended_no_wide_entry_in_hole vec3ThenVec2Ex ⟨"v", 0, 12, 16⟩
      ⟨"w", 16, 8, 8⟩ (by decide) (by decide) (by decide) (by decide)⟩

/-- Claim C1 counterexample: with a 4x4 matrix followed by a scalar,
`updateUniformBuffer` serializes the scalar at byte offset 0 while the
layout walk of `calculateUniformBufferSize` assigns it offset 64,
because `writeUniformData` has no case for length-16 arrays and returns
0 bytes written. -/
theorem c1_counterexample_matrix_offsets_diverge :
    updateUniformBufferOffsets matrixThenScalarEx = [("m", 0), ("x", 0)] ∧
      (layoutEntries matrixThenScalarEx).map (fun e => (e.name, e.offset)) =
        [("m", 0), ("x", 64)] ∧
      updateUniformBufferOffsets matrixThenScalarEx ≠
        (layoutEntries matrixThenScalarEx).map (fun e => (e.name, e.offset)) := by
  refine ⟨by decide, by decide, by decide⟩

/-- Claim C1 (amended): for every descriptor containing no matrix-shaped
value (array of length 9 or 16), `updateUniformBuffer` serializes each
recognized non-texture entry at exactly the byte offset the layout walk
of `calculateUniformBufferSize` assigns to it. (With a matrix present,
`writeUniformData` writes nothing and returns 0, so every later entry is
serialized at a lower offset than its layout offset.) -/
theorem c1_amended_update_offsets_match_layout (us : Uniforms)
    (h : ∀ kv ∈ us, isMatrixShaped kv.2 = false) :
    updateUniformBufferOffsets us =
      (layoutEntries us).map (fun e => (e.name, e.offset)) :=
  updateWalkFrom_eq_layoutEntriesFrom us 0 h

/-- Witness for the amended C1 at the worked example of the spec. -/
theorem c1_amended_witness :
    (∀ kv ∈ specExampleUniforms, isMatrixShaped kv.2 = false) ∧
      updateUniformBufferOffsets specExampleUniforms =
        (layoutEntries specExampleUniforms).map (fun e => (e.name, e.offset)) :=
  ⟨by decide, c1_amended_update_offsets_match_layout specExampleUniforms
    (by decide)⟩

theorem drop_append_of_le_length {α : Type} (l m : List α) (k : Nat)
    (h : k ≤ l.length) : (l ++ m).drop k = l.drop k ++ m := by
  conv_lhs => rw [← List.take_append_drop k l, List.append_assoc]
  rw [List.drop_left']
  rw [List.length_take]
  omega


theorem lastN_append_absorb (c : Nat) (l m : List REvent) :
    lastN c (lastN c l ++ m) = lastN c (l ++ m) := by
  unfold lastN
  rw [List.drop_append_eq_append_drop, List.drop_append_eq_append_drop,
    List.drop_drop]
  congr 1
  · congr 1
    simp only [List.length_append, List.length_drop]
    omega
  · congr 1
    simp only [List.length_append, List.length_drop]
    omega

theorem lastN_of_length_le (c : Nat) (l : List REvent)
    (h : l.length ≤ c) : lastN c l = l := by
  unfold lastN
  rw [Nat.sub_eq_zero_of_le h, List.drop_zero]

theorem emit_step (c : Nat) (hc : 0 < c) (s : EventEmitter) (e : REvent)
    (hinv : EmitterInv c s) :
    EmitterInv c (s.emit e) ∧
      (s.emit e).getHistory none = lastN c (s.getHistory none ++ [e]) := by
  obtain ⟨ty, mh, hist, idx, ful⟩ := s
  obtain ⟨ht, hm, hf, hnf⟩ := hinv
  dsimp only at ht hm hf hnf
  subst ht
  subst mh
  cases ful with
  | false =>
    obtain ⟨hidx, hlen⟩ := hnf rfl
    subst hidx
    unfold EventEmitter.emit EventEmitter.getHistory
    simp only [filteredOut, Bool.false_eq_true, if_false, if_pos hc,
      not_false_iff, and_true, reduceIte]
    by_cases hcase : hist.length + 1 < c
    · have hmod : (hist.length + 1) % c = hist.length + 1 :=
        Nat.mod_eq_of_lt (by omega)
      rw [hmod, if_neg (by omega : ¬ hist.length + 1 = 0)]
      simp only [Bool.false_eq_true, if_false, reduceIte]
      constructor
      · refine ⟨rfl, rfl, ?_, ?_⟩ <;> intro hx <;> dsimp only at hx ⊢
        · exact absurd hx (by simp)
        · simp only [List.length_append, List.length_singleton]
          exact ⟨trivial, by omega⟩
      · rw [lastN_of_length_le]
        simp only [List.length_append, List.length_singleton]
        omega
    · have hlen1 : hist.length + 1 = c := by omega
      have hmod : (hist.length + 1) % c = 0 := by
        rw [hlen1]
        exact Nat.mod_self c
      rw [hmod, if_pos rfl]
      simp only [List.drop_zero, List.take_zero, List.append_nil, reduceIte]
      constructor
      · refine ⟨rfl, rfl, ?_, ?_⟩ <;> intro hx <;> dsimp only at hx ⊢
        · constructor
          · simp only [List.length_append, List.length_singleton]
            omega
          · omega
        · exact absurd hx (by simp)
      · rw [lastN_of_length_le]
        simp only [List.length_append, List.length_singleton]
        omega
  | true =>
    obtain ⟨hlen, hidx⟩ := hf rfl
    unfold EventEmitter.emit EventEmitter.getHistory
    simp only [filteredOut, Bool.false_eq_true, if_false, if_pos hc,
      not_true_eq_false, and_false, reduceIte]
    have hset : hist.set idx e = hist.take idx ++ e :: hist.drop (idx + 1) :=
      List.set_eq_take_cons_drop e (by omega)
    have htklen : (hist.take idx).length = idx := by
      rw [List.length_take]
      omega
    have hrhs : lastN c (hist.drop idx ++ hist.take idx ++ [e]) =
        hist.drop (idx + 1) ++ (hist.take idx ++ [e]) := by
      unfold lastN
      have hL : (hist.drop idx ++ hist.take idx ++ [e]).length - c = 1 := by
        simp only [List.length_append, List.length_drop, List.length_take,
          List.length_singleton]
        omega
      rw [hL, List.append_assoc, List.drop_append_eq_append_drop,
        List.drop_drop]
      have h1 : 1 - (hist.drop idx).length = 0 := by
        rw [List.length_drop]
        omega
      rw [h1, List.drop_zero]
    by_cases hcase : idx + 1 < c
    · have hmod : (idx + 1) % c = idx + 1 := Nat.mod_eq_of_lt hcase
      rw [hmod]
      constructor
      · refine ⟨rfl, rfl, ?_, ?_⟩ <;> intro hx <;> dsimp only at hx ⊢
        · constructor
          · rw [List.length_set]
            omega
          · omega
        · exact absurd hx (by simp)
      · rw [hrhs, hset, List.drop_append_eq_append_drop,
          List.take_append_eq_append_take]
        rw [List.drop_eq_nil_of_le (by rw [htklen]; omega), htklen]
        have h2 : idx + 1 - idx = 1 := by omega
        rw [h2, List.take_of_length_le (by rw [htklen]; omega)]
        simp
    · have hidx1 : idx + 1 = c := by omega
      have hmod : (idx + 1) % c = 0 := by
        rw [hidx1]
        exact Nat.mod_self c
      rw [hmod]
      constructor
      · refine ⟨rfl, rfl, ?_, ?_⟩ <;> intro hx <;> dsimp only at hx ⊢
        · constructor
          · rw [List.length_set]
            omega
          · omega
        · exact absurd hx (by simp)
      · simp only [List.drop_zero, List.take_zero, List.append_nil]
        rw [hrhs, hset]
        rw [List.drop_eq_nil_of_le (by omega : hist.length ≤ idx + 1)]
        simp

theorem getHistory_length_le (c : Nat) (s : EventEmitter)
    (hinv : EmitterInv c s) : (s.getHistory none).length ≤ c := by
  obtain ⟨ty, mh, hist, idx, ful⟩ := s
  obtain ⟨ht, hm, hf, hnf⟩ := hinv
  dsimp only at ht hm hf hnf
  subst ht
  subst mh
  cases ful with
  | false =>
    obtain ⟨hidx, hlen⟩ := hnf rfl
    unfold EventEmitter.getHistory
    simp only [Bool.false_eq_true, if_false, reduceIte]
    omega
  | true =>
    obtain ⟨hlen, hidx⟩ := hf rfl
    unfold EventEmitter.getHistory
    simp only [reduceIte, List.length_append, List.length_drop,
      List.length_take]
    omega

theorem emitAll_getHistory (c : Nat) (hc : 0 < c) :
    ∀ (evs : List REvent) (s : EventEmitter), EmitterInv c s →
      EmitterInv c (emitAll s evs) ∧
        (emitAll s evs).getHistory none =
          lastN c (s.getHistory none ++ evs) := by
  intro evs
  induction evs with
  | nil =>
    intro s hinv
    refine ⟨hinv, ?_⟩
    rw [List.append_nil]
    exact (lastN_of_length_le c _ (getHistory_length_le c s hinv)).symm
  | cons e evs ih =>
    intro s hinv
    obtain ⟨h1, h2⟩ := emit_step c hc s e hinv
    obtain ⟨h3, h4⟩ := ih (s.emit e) h1
    refine ⟨h3, ?_⟩
    have hfold : emitAll s (e :: evs) = emitAll (s.emit e) evs := rfl
    rw [hfold, h4, h2, lastN_append_absorb, List.append_assoc,
      List.singleton_append]

/-- Claim C4: for every capacity c > 0 and every sequence of more than c
events emitted into a fresh unfiltered emitter, `getHistory()` with no
filter returns exactly the c most recently emitted events in
chronological order, oldest first, regardless of the ring buffer
wraparound position. -/
theorem c4_history_ring_buffer (c : Nat) (evs : List REvent) (hc : 0 < c)
    (hn : c < evs.length) :
    (emitAll (mkEventEmitter none c) evs).getHistory none =
        evs.drop (evs.length - c) ∧
      ((emitAll (mkEventEmitter none c) evs).getHistory none).length = c := by
  have h0 : EmitterInv c (mkEventEmitter none c) := by
    refine ⟨rfl, rfl, ?_, ?_⟩ <;> intro hx
    · exact absurd hx (by simp [mkEventEmitter])
    · exact ⟨rfl, by simpa [mkEventEmitter] using hc⟩
  obtain ⟨_, hh⟩ := emitAll_getHistory c hc evs (mkEventEmitter none c) h0
  have hnilgh : (mkEventEmitter none c).getHistory none = [] := rfl
  rw [hnilgh, List.nil_append] at hh
  refine ⟨hh, ?_⟩
  rw [hh]
  unfold lastN
  rw [List.length_drop]
  omega

/-- Witness for C4: capacity 2, three draw events; the history holds the
last two, oldest first. -/
theorem c4_history_ring_buffer_witness :
    (0 : Nat) < 2 ∧ (2 : Nat) < 3 ∧
      ((emitAll (mkEventEmitter none 2)
            [⟨"draw", 1⟩, ⟨"draw", 2⟩, ⟨"draw", 3⟩]).getHistory none =
          [⟨"draw", 2⟩, ⟨"draw", 3⟩] ∧
        ((emitAll (mkEventEmitter none 2)
            [⟨"draw", 1⟩, ⟨"draw", 2⟩, ⟨"draw", 3⟩]).getHistory none).length =
          2) :=
  ⟨by decide, by decide,
    c4_history_ring_buffer 2 [⟨"draw", 1⟩, ⟨"draw", 2⟩, ⟨"draw", 3⟩]
      (by decide) (by decide)⟩

/-- Claim C5: `parseBindGroup1Bindings` classifies each matched group-1
declaration in priority order: modifier `uniform` sets the
uniform-buffer slot; otherwise modifier `storage` or a type containing
`array<` adds a storage entry keyed by name; otherwise a type containing
`texture_` adds a texture entry; otherwise a type containing `sampler`
adds a sampler entry. On the source
`@group(1) @binding(0) var<uniform> u: Params;` it reports
uniform-buffer slot 0 and empty texture, sampler and storage maps. -/
theorem c5_binding_classification (b : WGSLBindings) (d : WGSLDecl) :
    (d.varModifier = some ("uniform") →
      addDecl b d = { b with uniformBuffer := some d.binding }) ∧
    (d.varModifier ≠ some ("uniform") →
      (d.varModifier = some ("storage") ∨
        strIncludes d.ty ("array<") = true) →
      addDecl b d =
        { b with storage := mapSet b.storage d.name d.binding }) ∧
    (d.varModifier ≠ some ("uniform") → d.varModifier ≠ some ("storage") →
      strIncludes d.ty ("array<") = false →
      strIncludes d.ty ("texture_") = true →
      addDecl b d =
        { b with textures := mapSet b.textures d.name d.binding }) ∧
    (d.varModifier ≠ some ("uniform") → d.varModifier ≠ some ("storage") →
      strIncludes d.ty ("array<") = false →
      strIncludes d.ty ("texture_") = false →
      strIncludes d.ty ("sampler") = true →
      addDecl b d =
        { b with samplers := mapSet b.samplers d.name d.binding }) ∧
    parseBindGroup1Bindings ("@group(1) @binding(0) var<uniform> u: Params;")
      = ⟨some 0, [], [], []⟩ := by
  refine ⟨?_, ?_, ?_, ?_, by decide⟩
  · intro h1
    unfold addDecl
    split_ifs with g1 g2 g3 g4
    · rfl
    · exact absurd (by simp [h1]) g1
    · exact absurd (by simp [h1]) g1
    · exact absurd (by simp [h1]) g1
    · exact absurd (by simp [h1]) g1
  · intro h1 h2
    unfold addDecl
    split_ifs with g1 g2 g3 g4
    · exact absurd (by simpa using g1) h1
    · rfl
    · rcases h2 with h | h
      · exact absurd (by simp [h]) g2
      · exact absurd (by simp [h]) g2
    · rcases h2 with h | h
      · exact absurd (by simp [h]) g2
      · exact absurd (by simp [h]) g2
    · rcases h2 with h | h
      · exact absurd (by simp [h]) g2
      · exact absurd (by simp [h]) g2
  · intro h1 h2 h3 h4
    unfold addDecl
    split_ifs with g1 g2
    · exact absurd (by simpa using g1) h1
    · rcases (by simpa using g2 :
        d.varModifier = some ("storage") ∨
          strIncludes d.ty ("array<") = true) with h | h
      · exact absurd h h2
      · exact absurd h (by simp [h3])
    · rfl
  · intro h1 h2 h3 h4 h5
    unfold addDecl
    split_ifs with g1 g2 g3
    · exact absurd (by simpa using g1) h1
    · rcases (by simpa using g2 :
        d.varModifier = some ("storage") ∨
          strIncludes d.ty ("array<") = true) with h | h
      · exact absurd h h2
      · exact absurd h (by simp [h3])
    · exact absurd g3 (by simp [h4])
    · rfl

/-- Witness for C5: a storage declaration with modifier `storage` and an
`array<` type is added to the storage map. -/
theorem c5_binding_classification_witness :
    addDecl emptyBindings ⟨2, some ("storage"), "pts", ("array<f32>")⟩ =
      ⟨none, [], [], [("pts", 2)]⟩ :=
  (c5_binding_classification emptyBindings
      ⟨2, some ("storage"), "pts", ("array<f32>")⟩).2.1
    (by decide) (Or.inl rfl)

/-- Claim C6: resizing a render target to different dimensions leaves
the identity of the stable `TextureReference` unchanged, while the GPU
texture that reference exposes afterwards is the newly created
post-resize backing texture, not the destroyed pre-resize one. -/
theorem c6_stable_reference_across_resize (st : GPUResourceState)
    (w h w2 h2 : Nat) (usage : RTUsage) (hdiff : ¬ (w2 = w ∧ h2 = h))
    (hfresh : ∀ d ∈ st.destroyed, d < st.nextId) :
    let p := mkRenderTarget st w h usage
    let q := RenderTarget.resize p.1 p.2 w2 h2
    q.2.textureRef.map TextureReference.refId =
        p.2.textureRef.map TextureReference.refId ∧
      q.2.textureRef.map TextureReference.gpuTexture =
        some q.2.gpuTexture ∧
      q.2.gpuTexture ≠ p.2.gpuTexture ∧
      p.2.gpuTexture ∈ q.1.destroyed ∧
      q.2.gpuTexture ∉ q.1.destroyed := by
  intro p q
  have hp : p = (⟨st.nextId + 1, st.destroyed⟩,
      ⟨w, h, usage, st.nextId, some ⟨st.nextId, st.nextId⟩, st.nextId⟩) := rfl
  have hq : q = (⟨st.nextId + 2, st.nextId :: st.destroyed⟩,
      ⟨w2, h2, usage, st.nextId + 1,
        some ⟨st.nextId, st.nextId + 1⟩, st.nextId + 1⟩) := by
    show RenderTarget.resize p.1 p.2 w2 h2 = _
    rw [hp]
    unfold RenderTarget.resize
    rw [if_neg hdiff]
    rfl
  rw [hp, hq]
  dsimp only
  refine ⟨rfl, rfl, by omega, List.mem_cons_self _ _, ?_⟩
  intro hmem
  rcases List.mem_cons.mp hmem with h1 | h1
  · omega
  · exact absurd (hfresh _ h1) (by omega)

/-- Witness for C6: a 4x4 target resized to 8x8 from a fresh GPU
state. -/
theorem c6_stable_reference_witness :
    (¬ ((8 : Nat) = 4 ∧ (8 : Nat) = 4)) ∧
      (let p := mkRenderTarget ⟨0, []⟩ 4 4 RTUsage.render
       let q := RenderTarget.resize p.1 p.2 8 8
       q.2.textureRef.map TextureReference.refId =
           p.2.textureRef.map TextureReference.refId ∧
         q.2.textureRef.map TextureReference.gpuTexture =
           some q.2.gpuTexture ∧
         q.2.gpuTexture ≠ p.2.gpuTexture ∧
         p.2.gpuTexture ∈ q.1.destroyed ∧
         q.2.gpuTexture ∉ q.1.destroyed) :=
  ⟨by decide,
    c6_stable_reference_across_resize ⟨0, []⟩ 4 4 8 8 RTUsage.render
      (by decide) (by decide)⟩

/-- Claim C8: the sampler slot of a texture uniform is selected by
trying, in order, `<name>Sampler`, `<name>_sampler`, and, when the name
ends in `Tex`, the base name plus `Sampler`, using the first match; when
none matches, the bind group gets the texture entry but no sampler
entry, the warning is logged, and the (total) assembly still returns. -/
theorem c8_sampler_fallback_chain (samplers : List (String × Nat))
    (name : String) (bindings : WGSLBindings) (t smp tb : Nat) :
    (∀ b, mapGet samplers (name ++ "Sampler") = some b →
      findSamplerBinding samplers name = some b) ∧
    (∀ b, mapGet samplers (name ++ "Sampler") = none →
      mapGet samplers (name ++ "_sampler") = some b →
      findSamplerBinding samplers name = some b) ∧
    (mapGet samplers (name ++ "Sampler") = none →
      mapGet samplers (name ++ "_sampler") = none →
      endsWithL name.data (("Tex").data) = true →
      findSamplerBinding samplers name =
        mapGet samplers
          (String.mk (name.data.take (name.data.length - 3)) ++
            "Sampler")) ∧
    (mapGet samplers (name ++ "Sampler") = none →
      mapGet samplers (name ++ "_sampler") = none →
      endsWithL name.data (("Tex").data) = false →
      findSamplerBinding samplers name = none) ∧
    (mapGet bindings.textures name = some tb →
      findSamplerBinding bindings.samplers name = none →
      textureBindGroupEntries bindings [(name, ⟨t, some smp⟩)] =
        ([(tb, BindResource.textureView t)], [samplerWarning name])) := by
  refine ⟨?_, ?_, ?_, ?_, ?_⟩
  · intro b hb
    unfold findSamplerBinding
    rw [hb]
  · intro b h1 h2
    unfold findSamplerBinding
    rw [h1, h2]
  · intro h1 h2 h3
    unfold findSamplerBinding
    rw [h1, h2, if_pos h3]
  · intro h1 h2 h3
    unfold findSamplerBinding
    rw [h1, h2, if_neg (by simp [h3])]
  · intro h1 h2
    unfold textureBindGroupEntries
    simp only [List.foldl_cons, List.foldl_nil]
    rw [h1]
    dsimp only
    rw [h2]
    dsimp only
    simp

/-- Witness for C8: a direct `fooSampler` hit, and a `bumpTex` texture
with a sampler but no discovered sampler slot, which yields the texture
entry and the warning only. -/
theorem c8_sampler_fallback_chain_witness :
    findSamplerBinding [("fooSampler", 7)] "foo" = some 7 ∧
      textureBindGroupEntries ⟨none, [("bumpTex", 3)], [], []⟩
          [("bumpTex", ⟨5, some 9⟩)] =
        ([(3, BindResource.textureView 5)], [samplerWarning "bumpTex"]) :=
  ⟨(c8_sampler_fallback_chain [("fooSampler", 7)] "foo" emptyBindings 0 0
      0).1 7 (by decide),
    (c8_sampler_fallback_chain [] "bumpTex" ⟨none, [("bumpTex", 3)], [], []⟩
      5 9 3).2.2.2.2 (by decide) (by decide)⟩

/-- Claim C10: constructing a `StorageBuffer` with an event context
emits exactly one memory event, with action `allocate`, resource type
`buffer`, and size equal to the `byteSize` passed to the constructor
(without a context, no event is emitted). -/
theorem c10_storage_buffer_allocate_event (n : Nat) :
    (mkStorageBuffer n true).2 = [⟨"memory", "buffer", n, "allocate"⟩] ∧
      (mkStorageBuffer n true).2.length = 1 ∧
      (mkStorageBuffer n true).1.byteSize = n ∧
      (mkStorageBuffer n false).2 = [] :=
  ⟨rfl, rfl, rfl, rfl⟩
